import Mathlib

/-!
Verification development for the embedded-text layout engine.

The middleware coordinator (src/src/middleware.rs) and the styled line pixel
iterator (src/src/rendering/line.rs) are embedded directly from the source.
The tokenizer, the line-breaking state machine and the per-element pixel
iterators are not part of the given sources; they are modelled from the
specification (sections 4.1, 4.2, 4.3 and 6), with the boundary rules pinned
by the test corpus inside src/src/rendering/line.rs.
-/

set_option linter.unusedVariables false

namespace EmbeddedText

/-- ProcessingState from middleware.rs: selects which of the two peeked-token
slots the coordinator consults. -/
inductive ProcessingState : Type
  | Measure : ProcessingState
  | Render : ProcessingState
deriving DecidableEq, Repr

/-- MiddlewareWrapper from middleware.rs: the processing state plus the two
independently buffered look-ahead slots. -/
structure MiddlewareWrapper (τ : Type) : Type where
  state : ProcessingState
  measurement_token : Option τ
  render_token : Option τ
deriving DecidableEq, Repr

/-- A middleware implementor: its internal state σ and the two token
transform hooks of middleware.rs (each takes the middleware state and the
underlying iterator, returns the produced token, the new middleware state and
the rest of the iterator). -/
structure Middleware (σ τ : Type) : Type where
  next_token_to_measure : σ → List τ → Option τ × σ × List τ
  next_token_to_render : σ → List τ → Option τ × σ × List τ

/-- current_token_ref from middleware.rs: the slot selected by the state. -/
def MiddlewareWrapper.current_token_ref {τ : Type} (w : MiddlewareWrapper τ) : Option τ :=
  match w.state with
  | ProcessingState.Measure => w.measurement_token
  | ProcessingState.Render => w.render_token

/-- Writing through current_token_ref: updates the slot selected by the state. -/
def MiddlewareWrapper.set_current {τ : Type} (w : MiddlewareWrapper τ) (v : Option τ) :
    MiddlewareWrapper τ :=
  match w.state with
  | ProcessingState.Measure => { w with measurement_token := v }
  | ProcessingState.Render => { w with render_token := v }

/-- next_token from middleware.rs: dispatches to the hook selected by the state. -/
def MiddlewareWrapper.next_token {τ σ : Type} (w : MiddlewareWrapper τ) (m : Middleware σ τ)
    (mw : σ) (it : List τ) : Option τ × σ × List τ :=
  match w.state with
  | ProcessingState.Measure => m.next_token_to_measure mw it
  | ProcessingState.Render => m.next_token_to_render mw it

/-- peek_token from middleware.rs: return the buffered token if present, else
pull one token through the current hook and buffer the result. -/
def MiddlewareWrapper.peek_token {τ σ : Type} (w : MiddlewareWrapper τ) (m : Middleware σ τ)
    (mw : σ) (it : List τ) : Option τ × MiddlewareWrapper τ × σ × List τ :=
  match w.current_token_ref with
  | some t => (some t, w, mw, it)
  | none =>
    let r := w.next_token m mw it
    (r.1, w.set_current r.1, r.2.1, r.2.2)

/-- consume_peeked_token from middleware.rs: take the current slot. -/
def MiddlewareWrapper.consume_peeked_token {τ : Type} (w : MiddlewareWrapper τ) :
    MiddlewareWrapper τ :=
  w.set_current none

/-- replace_peeked_token from middleware.rs: overwrite the current slot. -/
def MiddlewareWrapper.replace_peeked_token {τ : Type} (w : MiddlewareWrapper τ) (t : τ) :
    MiddlewareWrapper τ :=
  w.set_current (some t)

/-- set_state from middleware.rs. -/
def MiddlewareWrapper.set_state {τ : Type} (w : MiddlewareWrapper τ) (s : ProcessingState) :
    MiddlewareWrapper τ :=
  { w with state := s }

/-- The underlying iterator's next call on a list. -/
def listNext {τ : Type} : List τ → Option τ × List τ
  | [] => (none, [])
  | t :: rest => (some t, rest)

/-- NoMiddleware from middleware.rs: both hooks are the default, which simply
pulls the next token from the underlying iterator. -/
def NoMiddleware {τ : Type} : Middleware Unit τ :=
  ⟨fun u it => ((listNext it).1, u, (listNext it).2),
   fun u it => ((listNext it).1, u, (listNext it).2)⟩

/-- Modelled from the spec: Token (section 3; parser.rs is not under src/).
Word and whitespace-run tokens, explicit break with optional hyphen, explicit
newline, and inline style-change tokens (colors as abstract numerals). -/
inductive Token : Type
  | Word : List Char → Token
  | Whitespace : Nat → Token
  | Break : Option Char → Token
  | NewLine : Token
  | ChangeTextColor : Nat → Token
  | ChangeBackgroundColor : Nat → Token
deriving DecidableEq, Repr

/-- Flush a tokenizer accumulator (a pending word, reversed, or a pending
whitespace-run count) into tokens. -/
def flushAcc : Option (Sum (List Char) Nat) → List Token
  | none => []
  | some (Sum.inl w) => [Token.Word w.reverse]
  | some (Sum.inr n) => [Token.Whitespace n]

/-- Modelled from the spec: the tokenizer (section 4.1; parser.rs is not under
src/). Coalesces whitespace runs into one Whitespace token carrying the count,
and turns an embedded newline into an explicit break token. -/
def tokenizeAux : List Char → Option (Sum (List Char) Nat) → List Token
  | [], acc => flushAcc acc
  | c :: cs, acc =>
    if c = '\n' then
      flushAcc acc ++ Token.NewLine :: tokenizeAux cs none
    else if c = ' ' then
      match acc with
      | some (Sum.inr n) => tokenizeAux cs (some (Sum.inr (n + 1)))
      | some (Sum.inl w) => Token.Word w.reverse :: tokenizeAux cs (some (Sum.inr 1))
      | none => tokenizeAux cs (some (Sum.inr 1))
    else
      match acc with
      | some (Sum.inl w) => tokenizeAux cs (some (Sum.inl (c :: w)))
      | some (Sum.inr n) => Token.Whitespace n :: tokenizeAux cs (some (Sum.inl [c]))
      | none => tokenizeAux cs (some (Sum.inl [c]))

/-- Tokenize a string. -/
def tokenize (s : String) : List Token :=
  tokenizeAux s.toList none

/-- RenderElement as consumed by line.rs: printed character, a whitespace
block carrying its pixel width and character count, and the two style-change
elements. -/
inductive RenderElement : Type
  | PrintedCharacter : Char → RenderElement
  | Space : Nat → Nat → RenderElement
  | ChangeTextColor : Nat → RenderElement
  | ChangeBackgroundColor : Nat → RenderElement
deriving DecidableEq, Repr

/-- LineEndType: how a line ended (the vertical-space case is out of scope of
the claims). -/
inductive LineEndType : Type
  | NewLine : LineEndType
  | LineBreak : LineEndType
  | EndOfText : LineEndType
deriving DecidableEq, Repr

/-- The outcome of processing one line: the emitted elements, the token
carried into the next line (the remaining token of line.rs), the rest of the
token stream, and how the line ended. -/
structure LineResult : Type where
  elements : List RenderElement
  carried : Option Token
  leftover : List Token
  lineEnd : LineEndType
deriving DecidableEq, Repr

/-- Printed-character elements of a word. -/
def printedChars (s : List Char) : List RenderElement :=
  s.map RenderElement.PrintedCharacter

/-- Look-ahead used by the whitespace rule: the width of the word immediately
following, if any (cw is the fixed character width of the font). -/
def nextWordWidth (cw : Nat) : List Token → Option Nat
  | Token.Word s :: _ => some (cw * s.length)
  | _ => none

/-- Modelled from the spec: the line-breaking state machine (section 4.2 and
4.3; line_iter.rs is not under src/), for a fixed-width font of character
width cw and a line of maxW pixels, with the line-boundary rules pinned by
the test corpus in src/src/rendering/line.rs:
a word that fits is committed; a word that does not fit on an otherwise
untouched line is split at the character that no longer fits, the prefix
committed and the remainder carried as a Word token (tests
simple_render_first_word_not_wrapped and carried_over_spaces); a whitespace
run whose following word will not fit is consumed with zero width when the
run itself fits (test simple_render), and is clipped to the spaces that fit
when it does not (test carried_over_spaces), in both cases finishing the line
with a carried break marker; whitespace with no following word on the line is
rendered if it fits (test newline_stops_render); an explicit newline finishes
the line; style-change tokens are forwarded immediately with zero width. -/
def processLine (cw maxW : Nat) : Nat → Bool → List Token → LineResult
  | _, _, [] => ⟨[], none, [], LineEndType.EndOfText⟩
  | x, first, Token.Word s :: rest =>
    let width := cw * s.length
    if x + width ≤ maxW then
      let r := processLine cw maxW (x + width) false rest
      ⟨printedChars s ++ r.elements, r.carried, r.leftover, r.lineEnd⟩
    else if first then
      let k := (maxW - x) / cw
      ⟨printedChars (s.take k), some (Token.Word (s.drop k)), rest, LineEndType.LineBreak⟩
    else
      ⟨[], some (Token.Word s), rest, LineEndType.LineBreak⟩
  | x, first, Token.Whitespace n :: rest =>
    let spaceW := cw * n
    (match nextWordWidth cw rest with
     | some ww =>
       if x + spaceW + ww ≤ maxW then
         let r := processLine cw maxW (x + spaceW) first rest
         ⟨RenderElement.Space spaceW n :: r.elements, r.carried, r.leftover, r.lineEnd⟩
       else if x + spaceW ≤ maxW then
         ⟨[], some (Token.Break none), rest, LineEndType.LineBreak⟩
       else
         let k := (maxW - x) / cw
         ⟨[RenderElement.Space (cw * k) k], some (Token.Break none), rest,
          LineEndType.LineBreak⟩
     | none =>
       if x + spaceW ≤ maxW then
         let r := processLine cw maxW (x + spaceW) first rest
         ⟨RenderElement.Space spaceW n :: r.elements, r.carried, r.leftover, r.lineEnd⟩
       else
         let k := (maxW - x) / cw
         ⟨[RenderElement.Space (cw * k) k], some (Token.Break none), rest,
          LineEndType.LineBreak⟩)
  | _, _, Token.Break h :: rest =>
    (match h with
     | some c => ⟨[RenderElement.PrintedCharacter c], none, rest, LineEndType.NewLine⟩
     | none => ⟨[], none, rest, LineEndType.NewLine⟩)
  | _, _, Token.NewLine :: rest => ⟨[], none, rest, LineEndType.NewLine⟩
  | x, first, Token.ChangeTextColor c :: rest =>
    let r := processLine cw maxW x first rest
    ⟨RenderElement.ChangeTextColor c :: r.elements, r.carried, r.leftover, r.lineEnd⟩
  | x, first, Token.ChangeBackgroundColor c :: rest =>
    let r := processLine cw maxW x first rest
    ⟨RenderElement.ChangeBackgroundColor c :: r.elements, r.carried, r.leftover, r.lineEnd⟩

/-- A token carried into the next line: a carried break marker is dropped
(it only signalled the previous line's end), any other carried token is
processed before the stream. -/
def prependCarried : Option Token → List Token → List Token
  | some (Token.Break _), ts => ts
  | some t, ts => t :: ts
  | none, ts => ts

/-- Successive lines of a whole text (fuel bounds the number of lines). -/
def layout (cw maxW : Nat) : Nat → Option Token → List Token → List LineResult
  | 0, _, _ => []
  | Nat.succ fuel, carried, ts =>
    let r := processLine cw maxW 0 true (prependCarried carried ts)
    (match r.lineEnd with
     | LineEndType.EndOfText => [r]
     | _ => r :: layout cw maxW fuel r.carried r.leftover)

/-- The line-break positions of a layout, read off as the length of the token
stream still pending at each line end. -/
def breakPositions (cw maxW fuel : Nat) (ts : List Token) : List Nat :=
  (layout cw maxW fuel none ts).map (fun r => r.leftover.length)

/-- Horizontal extent of one render element (style changes take no space). -/
def elementWidth (cw : Nat) : RenderElement → Nat
  | RenderElement.PrintedCharacter _ => cw
  | RenderElement.Space w _ => w
  | RenderElement.ChangeTextColor _ => 0
  | RenderElement.ChangeBackgroundColor _ => 0

/-- Total drawn width of a line's elements. -/
def lineWidth (cw : Nat) (es : List RenderElement) : Nat :=
  (es.map (elementWidth cw)).sum

/-- Pair every element with its horizontal position (the pos threaded by the
inner iterator in line.rs). -/
def withPositions (cw : Nat) : Nat → List RenderElement → List (Nat × RenderElement)
  | _, [] => []
  | x, e :: es => (x, e) :: withPositions cw (x + elementWidth cw e) es

/-- The character style of line.rs (embedded-graphics text style): text color
and background color. -/
structure TextStyle (C : Type) : Type where
  text_color : Option C
  background_color : Option C
deriving DecidableEq, Repr

/-- TextBoxStyle as used by line.rs: the character style plus the decoration
flags consulted by the Space arm. -/
structure TextBoxStyle (C : Type) : Type where
  text_style : TextStyle C
  underlined : Bool
  strikethrough : Bool
deriving DecidableEq, Repr

/-- Modelled from the spec: the per-element pixel producers (section 6;
character.rs, whitespace.rs and modified_whitespace.rs are not under src/).
Each takes the element data, its horizontal position, the style and the
displayed row range, and returns the pixels it would emit. colorOf models the
conversion of a parsed color into the display's color type. -/
structure PixelBackend (C π : Type) : Type where
  charPixels : Char → Nat → TextBoxStyle C → Int → Int → List π
  spacePixels : Nat → Nat → TextBoxStyle C → Int → Int → List π
  modSpacePixels : Nat → Nat → TextBoxStyle C → Int → Int → List π
  colorOf : Nat → C

/-- is_anything_displayed from line.rs: the displayed row range is nonempty. -/
def is_anything_displayed (start stop : Int) : Bool :=
  decide (start < stop)

/-- The drain of StyledLinePixelIterator::next from line.rs over the inner
iterator's elements: a printed character or space yields its pixels only when
anything is displayed; a style-change element is consumed immediately,
yielding no pixels and updating only the corresponding color field; the space
arm picks the modified-space producer when underline or strikethrough is set.
Returns all pixels in order and the final style. -/
def runLine {C π : Type} (B : PixelBackend C π) (start stop : Int) :
    TextBoxStyle C → List (Nat × RenderElement) → List π × TextBoxStyle C
  | style, [] => ([], style)
  | style, (x, RenderElement.PrintedCharacter c) :: es =>
    if is_anything_displayed start stop then
      let r := runLine B start stop style es
      (B.charPixels c x style start stop ++ r.1, r.2)
    else
      runLine B start stop style es
  | style, (x, RenderElement.Space w n) :: es =>
    if is_anything_displayed start stop then
      let r := runLine B start stop style es
      ((if style.underlined || style.strikethrough then
          B.modSpacePixels w x style start stop
        else
          B.spacePixels w x style start stop) ++ r.1, r.2)
    else
      runLine B start stop style es
  | style, (_, RenderElement.ChangeTextColor c) :: es =>
    runLine B start stop
      { style with text_style := { style.text_style with text_color := some (B.colorOf c) } } es
  | style, (_, RenderElement.ChangeBackgroundColor c) :: es =>
    runLine B start stop
      { style with text_style := { style.text_style with background_color := some (B.colorOf c) } } es

/-- The full styled-line pipeline of line.rs: break one line out of the token
stream, position its elements, and drain them into pixels. Returns the
pixels, the final style, the remaining (carried) token and the parser state
after the line. -/
def styledLine {C π : Type} (B : PixelBackend C π) (style : TextBoxStyle C)
    (start stop : Int) (cw maxW : Nat) (carried : Option Token) (ts : List Token) :
    List π × TextBoxStyle C × Option Token × List Token :=
  let r := processLine cw maxW 0 true (prependCarried carried ts)
  let p := runLine B start stop style (withPositions cw 0 r.elements)
  (p.1, p.2, r.carried, r.leftover)

/-- Modelled from the spec: a concrete pixel backend in which every glyph
contributes one pixel at its position and every whitespace block is a filled
run of pixels (section 6: draw a filled whitespace block at this position). -/
def blockBackend : PixelBackend Nat (Nat × Nat) :=
  ⟨fun _ x _ _ _ => [(x, 0)],
   fun w x _ _ _ => (List.range w).map (fun i => (x + i, 0)),
   fun w x _ _ _ => (List.range w).map (fun i => (x + i, 0)),
   fun c => c⟩

/-- Drain the token stream through the middleware wrapper: repeatedly peek
and consume until the wrapper yields no token (fuel bounds the number of
tokens). This is exactly the token sequence a pass sees. -/
def drainTokens {σ τ : Type} (m : Middleware σ τ) :
    Nat → MiddlewareWrapper τ → σ → List τ → List τ
  | 0, _, _, _ => []
  | Nat.succ fuel, w, mw, it =>
    let r := w.peek_token m mw it
    (match r.1 with
     | none => []
     | some t => t :: drainTokens m fuel r.2.1.consume_peeked_token r.2.2.1 r.2.2.2)

/-- The token sequence seen by the measure pass: drain from a wrapper in
Measure state with both slots empty. -/
def measureStream {σ τ : Type} (m : Middleware σ τ) (fuel : Nat) (mw : σ) (it : List τ) :
    List τ :=
  drainTokens m fuel ⟨ProcessingState.Measure, none, none⟩ mw it

/-- The token sequence seen by the render pass: drain from a wrapper in
Render state with both slots empty. -/
def renderStream {σ τ : Type} (m : Middleware σ τ) (fuel : Nat) (mw : σ) (it : List τ) :
    List τ :=
  drainTokens m fuel ⟨ProcessingState.Render, none, none⟩ mw it

/-! Helper lemmas. -/

/-- Draining the wrapper in Measure state and in Render state yields the same
token sequence whenever the two hooks are the same function, for any pair of
wrappers whose active slots hold the same token and whose inactive slots are
arbitrary. -/
theorem drainTokens_state_agree {σ τ : Type} (m : Middleware σ τ)
    (h : m.next_token_to_measure = m.next_token_to_render) :
    ∀ (fuel : Nat) (s b b' : Option τ) (mw : σ) (it : List τ),
      drainTokens m fuel ⟨ProcessingState.Measure, s, b⟩ mw it
        = drainTokens m fuel ⟨ProcessingState.Render, b', s⟩ mw it := by
  intro fuel
  induction fuel with
  | zero => intro s b b' mw it; rfl
  | succ n ih =>
    intro s b b' mw it
    cases s with
    | some t =>
      show t :: drainTokens m n ⟨ProcessingState.Measure, none, b⟩ mw it
          = t :: drainTokens m n ⟨ProcessingState.Render, b', none⟩ mw it
      exact congrArg (List.cons t) (ih none b b' mw it)
    | none =>
      have hm : m.next_token_to_measure mw it = m.next_token_to_render mw it := by rw [h]
      rcases hr : m.next_token_to_render mw it with ⟨t?, mw', it'⟩
      cases t? with
      | none =>
        show (match (m.next_token_to_measure mw it).1 with
              | none => ([] : List τ)
              | some t => t :: drainTokens m n _ _ _)
            = (match (m.next_token_to_render mw it).1 with
              | none => ([] : List τ)
              | some t => t :: drainTokens m n _ _ _)
        rw [hm, hr]
      | some t =>
        show (match (m.next_token_to_measure mw it).1 with
              | none => ([] : List τ)
              | some u =>
                u :: drainTokens m n
                  ((⟨ProcessingState.Measure, none, b⟩ : MiddlewareWrapper τ).set_current
                      (m.next_token_to_measure mw it).1).consume_peeked_token
                  (m.next_token_to_measure mw it).2.1 (m.next_token_to_measure mw it).2.2)
            = (match (m.next_token_to_render mw it).1 with
              | none => ([] : List τ)
              | some u =>
                u :: drainTokens m n
                  ((⟨ProcessingState.Render, b', none⟩ : MiddlewareWrapper τ).set_current
                      (m.next_token_to_render mw it).1).consume_peeked_token
                  (m.next_token_to_render mw it).2.1 (m.next_token_to_render mw it).2.2)
        rw [hm, hr]
        exact congrArg (List.cons t) (ih none b b' mw' it')

/-- With an empty displayed row range, the drain of line.rs yields no pixel
at all, whatever the elements, positions, style and pixel backend. -/
theorem runLine_hidden {C π : Type} (B : PixelBackend C π) (start stop : Int)
    (h : ¬ start < stop) :
    ∀ (style : TextBoxStyle C) (pes : List (Nat × RenderElement)),
      (runLine B start stop style pes).1 = [] := by
  have hd : is_anything_displayed start stop = false := by
    simp [is_anything_displayed, h]
  intro style pes
  induction pes generalizing style with
  | nil => rfl
  | cons pe es ih =>
    rcases pe with ⟨x, e⟩
    cases e with
    | PrintedCharacter c => simp [runLine, hd]; exact ih _
    | Space w n => simp [runLine, hd]; exact ih _
    | ChangeTextColor c => simp [runLine]; exact ih _
    | ChangeBackgroundColor c => simp [runLine]; exact ih _

/-! Claim theorems. -/

/-- Claim C1: for any text, width, middleware and (fixed-width) font metrics,
the token sequence delivered by the middleware wrapper in Measure state
equals the one delivered in Render state whenever the measure-side and
render-side transform hooks are the same function, over equal underlying
token iterators; consequently the line-break positions computed by the
measure pass and by the render pass coincide. -/
theorem pass_agreement {σ : Type} (m : Middleware σ Token) (mw : σ)
    (fuel lineFuel cw maxW : Nat) (it : List Token)
    (h : m.next_token_to_measure = m.next_token_to_render) :
    measureStream m fuel mw it = renderStream m fuel mw it ∧
    breakPositions cw maxW lineFuel (measureStream m fuel mw it)
      = breakPositions cw maxW lineFuel (renderStream m fuel mw it) := by
  have hs : measureStream m fuel mw it = renderStream m fuel mw it :=
    drainTokens_state_agree m h fuel none none none mw it
  exact ⟨hs, by rw [hs]⟩

/-- Witness for C1 at the default middleware on a concrete text. -/
theorem pass_agreement_witness :
    ((NoMiddleware : Middleware Unit Token).next_token_to_measure
        = (NoMiddleware : Middleware Unit Token).next_token_to_render) ∧
    (measureStream (NoMiddleware : Middleware Unit Token) 9 () (tokenize "Some sample text")
        = renderStream (NoMiddleware : Middleware Unit Token) 9 () (tokenize "Some sample text") ∧
      breakPositions 6 42 9
          (measureStream (NoMiddleware : Middleware Unit Token) 9 () (tokenize "Some sample text"))
        = breakPositions 6 42 9
          (renderStream (NoMiddleware : Middleware Unit Token) 9 () (tokenize "Some sample text"))) :=
  ⟨rfl, pass_agreement (NoMiddleware : Middleware Unit Token) () 9 9 6 42
    (tokenize "Some sample text") rfl⟩

/-- Claim C2: the two look-ahead buffers are independent: peek_token,
consume_peeked_token and replace_peeked_token in Measure state write only the
measurement slot and leave the render slot unchanged (and the Measure-state
peek result does not read the render slot), and symmetrically in Render
state. -/
theorem wrapper_slot_independence {τ σ : Type} :
    ∀ (mt rt v : Option τ) (t : τ) (m : Middleware σ τ) (mw : σ) (it : List τ),
      ((⟨ProcessingState.Measure, mt, rt⟩ : MiddlewareWrapper τ).consume_peeked_token.render_token
        = rt) ∧
      (((⟨ProcessingState.Measure, mt, rt⟩ : MiddlewareWrapper τ).replace_peeked_token t).render_token
        = rt) ∧
      (((⟨ProcessingState.Measure, mt, rt⟩ : MiddlewareWrapper τ).peek_token m mw it).2.1.render_token
        = rt) ∧
      (((⟨ProcessingState.Measure, mt, v⟩ : MiddlewareWrapper τ).peek_token m mw it).1
        = ((⟨ProcessingState.Measure, mt, rt⟩ : MiddlewareWrapper τ).peek_token m mw it).1) ∧
      ((⟨ProcessingState.Render, mt, rt⟩ : MiddlewareWrapper τ).consume_peeked_token.measurement_token
        = mt) ∧
      (((⟨ProcessingState.Render, mt, rt⟩ : MiddlewareWrapper τ).replace_peeked_token t).measurement_token
        = mt) ∧
      (((⟨ProcessingState.Render, mt, rt⟩ : MiddlewareWrapper τ).peek_token m mw it).2.1.measurement_token
        = mt) ∧
      (((⟨ProcessingState.Render, v, rt⟩ : MiddlewareWrapper τ).peek_token m mw it).1
        = ((⟨ProcessingState.Render, mt, rt⟩ : MiddlewareWrapper τ).peek_token m mw it).1) := by
  intro mt rt v t m mw it
  refine ⟨?_, rfl, ?_, ?_, ?_, rfl, ?_, ?_⟩
  · cases mt <;> rfl
  · cases mt <;> rfl
  · cases mt <;> rfl
  · cases rt <;> rfl
  · cases rt <;> rfl
  · cases rt <;> rfl

/-- Claim C3: peek_token returns the buffered token, consuming nothing, when
the current state's buffer is full; with an empty buffer it pulls exactly one
token through the state's transform hook (next_token_to_measure in Measure,
next_token_to_render in Render) and stores the result in the buffer; with the
default middleware two consecutive peeks return the same token, leave the
wrapper fixed, and consume at most one token of the underlying iterator. -/
theorem peek_token_spec {τ σ : Type} :
    ∀ (mt rt : Option τ) (t : τ) (m : Middleware σ τ) (mw : σ) (it : List τ),
      ((⟨ProcessingState.Measure, some t, rt⟩ : MiddlewareWrapper τ).peek_token m mw it
        = (some t, ⟨ProcessingState.Measure, some t, rt⟩, mw, it)) ∧
      ((⟨ProcessingState.Render, mt, some t⟩ : MiddlewareWrapper τ).peek_token m mw it
        = (some t, ⟨ProcessingState.Render, mt, some t⟩, mw, it)) ∧
      ((⟨ProcessingState.Measure, none, rt⟩ : MiddlewareWrapper τ).peek_token m mw it
        = ((m.next_token_to_measure mw it).1,
           ⟨ProcessingState.Measure, (m.next_token_to_measure mw it).1, rt⟩,
           (m.next_token_to_measure mw it).2.1, (m.next_token_to_measure mw it).2.2)) ∧
      ((⟨ProcessingState.Render, mt, none⟩ : MiddlewareWrapper τ).peek_token m mw it
        = ((m.next_token_to_render mw it).1,
           ⟨ProcessingState.Render, mt, (m.next_token_to_render mw it).1⟩,
           (m.next_token_to_render mw it).2.1, (m.next_token_to_render mw it).2.2)) ∧
      (let p := (⟨ProcessingState.Measure, none, rt⟩ : MiddlewareWrapper τ).peek_token
          (NoMiddleware : Middleware Unit τ) () it
       let q := p.2.1.peek_token (NoMiddleware : Middleware Unit τ) p.2.2.1 p.2.2.2
       q = (p.1, p.2.1, p.2.2.1, p.2.2.2) ∧ it.length ≤ p.2.2.2.length + 1) := by
  intro mt rt t m mw it
  refine ⟨rfl, rfl, rfl, rfl, ?_⟩
  cases it with
  | nil => exact ⟨rfl, Nat.zero_le 1⟩
  | cons a l => exact ⟨rfl, Nat.le_refl (l.length + 1)⟩

/-- Claim C4: consume_peeked_token empties the current state's buffer, so the
next peek in that state pulls a fresh token through the hook; and
replace_peeked_token overwrites the current state's buffer, so the next peek
in that state returns the replacement and consumes nothing. -/
theorem consume_replace_spec {τ σ : Type} :
    ∀ (mt rt : Option τ) (t : τ) (m : Middleware σ τ) (mw : σ) (it : List τ),
      ((⟨ProcessingState.Measure, mt, rt⟩ : MiddlewareWrapper τ).consume_peeked_token
        = ⟨ProcessingState.Measure, none, rt⟩) ∧
      ((⟨ProcessingState.Render, mt, rt⟩ : MiddlewareWrapper τ).consume_peeked_token
        = ⟨ProcessingState.Render, mt, none⟩) ∧
      ((⟨ProcessingState.Measure, mt, rt⟩ : MiddlewareWrapper τ).consume_peeked_token.peek_token m mw it
        = ((m.next_token_to_measure mw it).1,
           ⟨ProcessingState.Measure, (m.next_token_to_measure mw it).1, rt⟩,
           (m.next_token_to_measure mw it).2.1, (m.next_token_to_measure mw it).2.2)) ∧
      ((⟨ProcessingState.Render, mt, rt⟩ : MiddlewareWrapper τ).consume_peeked_token.peek_token m mw it
        = ((m.next_token_to_render mw it).1,
           ⟨ProcessingState.Render, mt, (m.next_token_to_render mw it).1⟩,
           (m.next_token_to_render mw it).2.1, (m.next_token_to_render mw it).2.2)) ∧
      ((⟨ProcessingState.Measure, mt, rt⟩ : MiddlewareWrapper τ).replace_peeked_token t
        = ⟨ProcessingState.Measure, some t, rt⟩) ∧
      ((⟨ProcessingState.Render, mt, rt⟩ : MiddlewareWrapper τ).replace_peeked_token t
        = ⟨ProcessingState.Render, mt, some t⟩) ∧
      (((⟨ProcessingState.Measure, mt, rt⟩ : MiddlewareWrapper τ).replace_peeked_token t).peek_token m mw it
        = (some t, ⟨ProcessingState.Measure, some t, rt⟩, mw, it)) ∧
      (((⟨ProcessingState.Render, mt, rt⟩ : MiddlewareWrapper τ).replace_peeked_token t).peek_token m mw it
        = (some t, ⟨ProcessingState.Render, mt, some t⟩, mw, it)) := by
  intro mt rt t m mw it
  exact ⟨rfl, rfl, rfl, rfl, rfl, rfl, rfl, rfl⟩

/-- Claim C5 counterexample: on the pinned scenario of
test simple_render_first_word_not_wrapped (text of "Some sample text", line
two characters wide), the over-wide first word is not fully placed: only the
prefix is printed and the remainder is carried as a Word token. -/
theorem first_word_not_fully_placed :
    (processLine 6 12 0 true (tokenize "Some sample text")).elements
        = printedChars ("So".toList) ∧
    (processLine 6 12 0 true (tokenize "Some sample text")).carried
        = some (Token.Word ("me".toList)) ∧
    printedChars ("So".toList) ≠ printedChars ("Some".toList) := by
  exact ⟨by decide, by decide, by decide⟩

/-- Claim C5 (amended): a single word wider than the full line width arriving
on an otherwise-empty line is split: the prefix that fits is committed as
printed characters and the remainder is carried as a Word token; the
committed prefix is nonempty whenever the line is at least one character
wide, so no zero-content LineBreak is produced and layout always makes
progress. -/
theorem first_word_split (cw maxW : Nat) (s : List Char) (rest : List Token)
    (hcw : 0 < cw) (hfit : cw ≤ maxW) (hwide : maxW < cw * s.length) :
    processLine cw maxW 0 true (Token.Word s :: rest)
      = ⟨printedChars (s.take (maxW / cw)), some (Token.Word (s.drop (maxW / cw))), rest,
         LineEndType.LineBreak⟩ ∧
    1 ≤ maxW / cw ∧ maxW / cw < s.length ∧
    printedChars (s.take (maxW / cw)) ≠ [] := by
  have hk : 1 ≤ maxW / cw := (Nat.one_le_div_iff hcw).mpr hfit
  have hlen : 0 < s.length := by
    rcases Nat.eq_zero_or_pos s.length with h0 | h0
    · rw [h0, Nat.mul_zero] at hwide; omega
    · exact h0
  have hkl : maxW / cw < s.length := by
    rw [Nat.div_lt_iff_lt_mul hcw, Nat.mul_comm]
    exact hwide
  have hne : printedChars (s.take (maxW / cw)) ≠ [] := by
    simp only [printedChars, ne_eq, List.map_eq_nil_iff, List.take_eq_nil_iff]
    intro hc
    rcases hc with hc | hc
    · omega
    · rw [hc] at hlen; simp at hlen
  have h1 : ¬ (cw * s.length ≤ maxW) := by omega
  have hmain : processLine cw maxW 0 true (Token.Word s :: rest)
      = ⟨printedChars (s.take (maxW / cw)), some (Token.Word (s.drop (maxW / cw))), rest,
         LineEndType.LineBreak⟩ := by
    simp [processLine, h1]
  exact ⟨hmain, hk, hkl, hne⟩

/-- Witness for C5 (amended) on the pinned scenario. -/
theorem first_word_split_witness :
    ((0 < 6 ∧ 6 ≤ 12) ∧ 12 < 6 * ("Some".toList).length) ∧
    (processLine 6 12 0 true (Token.Word ("Some".toList) :: tokenize " sample text")
        = ⟨printedChars (("Some".toList).take (12 / 6)),
           some (Token.Word (("Some".toList).drop (12 / 6))), tokenize " sample text",
           LineEndType.LineBreak⟩ ∧
      1 ≤ 12 / 6 ∧ 12 / 6 < ("Some".toList).length ∧
      printedChars (("Some".toList).take (12 / 6)) ≠ []) :=
  ⟨by decide, first_word_split 6 12 ("Some".toList) (tokenize " sample text")
    (by decide) (by decide) (by decide)⟩

/-- Claim C6 counterexample: in the seven-character box the token remaining
after the first line of "Some sample text" is the carried break marker
Break(None), not a Word token for "sample" (which instead stays in the
parser stream). -/
theorem remaining_after_wrap_not_word :
    (processLine 6 42 0 true (tokenize "Some sample text")).carried
        = some (Token.Break none) ∧
    some (Token.Break none) ≠ some (Token.Word ("sample".toList)) := by
  exact ⟨by decide, by decide⟩

/-- Claim C6 (amended): "Some sample text" in a box wide enough for exactly
seven characters of a six-pixel fixed-width font wraps after "Some " (the
trailing space is consumed with zero width); the remaining token is
Break(None) and the next token of the parser stream is the Word token for
"sample". -/
theorem wrap_after_some :
    processLine 6 42 0 true (tokenize "Some sample text")
      = ⟨printedChars ("Some".toList), some (Token.Break none), tokenize "sample text",
         LineEndType.LineBreak⟩ ∧
    (tokenize "sample text").head? = some (Token.Word ("sample".toList)) := by
  exact ⟨by decide, by decide⟩

/-- Claim C7 counterexample: for "Some  sample text" in the five-character
box, nothing is carried into the next line's leading position: the second
line's first positioned element is the printed character at position zero,
not a space of one space's width, while the single rendered space sits at the
end of the first line. -/
theorem no_space_carried_to_next_line :
    ((layout 6 30 9 none (tokenize "Some  sample text")).map
        (fun r => (withPositions 6 0 r.elements).head?)).get? 1
      = some (some (0, RenderElement.PrintedCharacter 's')) ∧
    some (some ((0 : Nat), RenderElement.PrintedCharacter 's'))
      ≠ some (some ((0 : Nat), RenderElement.Space 6 1)) ∧
    ((layout 6 30 9 none (tokenize "Some  sample text")).map
        (fun r => r.elements.getLast?)).get? 0
      = some (some (RenderElement.Space 6 1)) := by
  exact ⟨by decide, by decide, by decide⟩

/-- Claim C7 (amended): with two consecutive spaces of which only one fits at
the line end, exactly one space is rendered at the end of the first line, the
other space is consumed with zero width, the carried token is Break(None),
and the next line begins directly with the following word (split by the
first-word rule). -/
theorem one_space_at_line_end :
    (layout 6 30 9 none (tokenize "Some  sample text")).take 2
      = [⟨printedChars ("Some".toList) ++ [RenderElement.Space 6 1], some (Token.Break none),
          tokenize "sample text", LineEndType.LineBreak⟩,
         ⟨printedChars ("sampl".toList), some (Token.Word ("e".toList)), tokenize " text",
          LineEndType.LineBreak⟩] := by
  decide

/-- Claim C8 counterexample: for "Some \nsample text" the first line's
rendering does not stop right after the word "Some": the trailing space
before the explicit break is emitted as a six-pixel space block at position
24, the drawn line width is 30 rather than at most 24, and with the concrete
block backend pixels are drawn at positions 24 and beyond. -/
theorem trailing_space_drawn_before_break :
    (processLine 6 42 0 true (tokenize "Some \nsample text")).elements
        = printedChars ("Some".toList) ++ [RenderElement.Space 6 1] ∧
    lineWidth 6 (processLine 6 42 0 true (tokenize "Some \nsample text")).elements = 30 ∧
    ¬ ((30 : Nat) ≤ 24) ∧
    ((24, 0) ∈ (styledLine blockBackend ⟨⟨some 1, some 0⟩, false, false⟩ 0 8 6 42 none
        (tokenize "Some \nsample text")).1) := by
  exact ⟨by decide, by decide, by decide, by decide⟩

/-- Claim C8 (amended): rendering "Some \nsample text" stops at the explicit
break (no token after the newline contributes to the first line, which ends
as NewLine), but the trailing space before the break keeps its width: it is
rendered as a one-space empty block after "Some". -/
theorem newline_stops_line :
    processLine 6 42 0 true (tokenize "Some \nsample text")
      = ⟨printedChars ("Some".toList) ++ [RenderElement.Space 6 1], none,
         tokenize "sample text", LineEndType.NewLine⟩ := by
  decide

/-- Claim C9: a style-change element is consumed by the line pixel iterator
immediately: it yields no pixels, the drain continues on the remaining
elements under the updated style, only the corresponding color field of the
text style changes, the element takes no horizontal space so the following
element keeps its position, and the line-breaking machine forwards the
corresponding token without advancing the cursor and without wrapping. -/
theorem style_change_frame {C π : Type} (B : PixelBackend C π) (style : TextBoxStyle C)
    (start stop : Int) (c px cw maxW x : Nat) (first : Bool)
    (pes : List (Nat × RenderElement)) (es : List RenderElement) (ts : List Token) :
    (runLine B start stop style ((px, RenderElement.ChangeTextColor c) :: pes)
      = runLine B start stop
          { style with text_style := { style.text_style with text_color := some (B.colorOf c) } }
          pes) ∧
    (runLine B start stop style ((px, RenderElement.ChangeBackgroundColor c) :: pes)
      = runLine B start stop
          { style with
              text_style := { style.text_style with background_color := some (B.colorOf c) } }
          pes) ∧
    ({ style with text_style := { style.text_style with text_color := some (B.colorOf c) } }
      : TextBoxStyle C).text_style.background_color = style.text_style.background_color ∧
    ({ style with text_style := { style.text_style with text_color := some (B.colorOf c) } }
      : TextBoxStyle C).underlined = style.underlined ∧
    ({ style with text_style := { style.text_style with text_color := some (B.colorOf c) } }
      : TextBoxStyle C).strikethrough = style.strikethrough ∧
    ({ style with text_style := { style.text_style with background_color := some (B.colorOf c) } }
      : TextBoxStyle C).text_style.text_color = style.text_style.text_color ∧
    elementWidth cw (RenderElement.ChangeTextColor c) = 0 ∧
    (withPositions cw x (RenderElement.ChangeTextColor c :: es)
      = (x, RenderElement.ChangeTextColor c) :: withPositions cw x es) ∧
    (processLine cw maxW x first (Token.ChangeTextColor c :: ts)
      = ⟨RenderElement.ChangeTextColor c :: (processLine cw maxW x first ts).elements,
         (processLine cw maxW x first ts).carried,
         (processLine cw maxW x first ts).leftover,
         (processLine cw maxW x first ts).lineEnd⟩) ∧
    (processLine cw maxW x first (Token.ChangeBackgroundColor c :: ts)
      = ⟨RenderElement.ChangeBackgroundColor c :: (processLine cw maxW x first ts).elements,
         (processLine cw maxW x first ts).carried,
         (processLine cw maxW x first ts).leftover,
         (processLine cw maxW x first ts).lineEnd⟩) :=
  ⟨rfl, rfl, rfl, rfl, rfl, rfl, rfl, rfl, rfl, rfl⟩

/-- Claim C10: when the displayed row range is empty the styled line yields
no pixels at all, yet the remaining token and the parser state after the line
are exactly those of the same line with any other (for example, fully drawn)
row range. -/
theorem hidden_line_consumes_tokens {C π : Type} (B : PixelBackend C π)
    (style : TextBoxStyle C) (start stop start' stop' : Int) (cw maxW : Nat)
    (carried : Option Token) (ts : List Token)
    (h : stop ≤ start) :
    (styledLine B style start stop cw maxW carried ts).1 = [] ∧
    (styledLine B style start stop cw maxW carried ts).2.2
      = (styledLine B style start' stop' cw maxW carried ts).2.2 := by
  constructor
  · exact runLine_hidden B start stop (not_lt.mpr h) style _
  · rfl

/-- Witness for C10 on the scenario of test render_before_area. -/
theorem hidden_line_consumes_tokens_witness :
    ((0 : Int) ≤ 0) ∧
    ((styledLine blockBackend ⟨⟨some 1, some 0⟩, false, false⟩ 0 0 6 42 none
        (tokenize " Some sample text")).1 = [] ∧
      (styledLine blockBackend ⟨⟨some 1, some 0⟩, false, false⟩ 0 0 6 42 none
        (tokenize " Some sample text")).2.2
        = (styledLine blockBackend ⟨⟨some 1, some 0⟩, false, false⟩ 0 8 6 42 none
          (tokenize " Some sample text")).2.2) :=
  ⟨by decide, hidden_line_consumes_tokens blockBackend ⟨⟨some 1, some 0⟩, false, false⟩
    0 0 0 8 6 42 none (tokenize " Some sample text") (by decide)⟩

end EmbeddedText
